import Mathlib

/-!
Verification of the appointment-scheduling core of the repository:
the slot-availability engine (available_slots.py, doctor_schedule.py) and the
booking validation/creation flow (appointment_booking.py), over a shallow
embedding in which datetimes are absolute minute counts and external calls
(the Calendly fetch, the uuid generator) become explicit parameters.

Conventions of the embedding:
* a date is the number of days since 0001-01-01 (a Monday in the proleptic
  Gregorian calendar, matching Python where date(1,1,1).weekday() == 0), so
  the weekday index is date % 1440 ... date % 7 with 0 = monday;
* a datetime is date * 1440 + minutes-of-day;
* Python dicts that may or may not carry a key become structures with Option
  fields or small inductive result types, one constructor per dict shape.
-/

namespace Sched

/-- A parsed busy-interval timestamp as produced by datetime.fromisoformat:
the wall-clock value in absolute minutes, plus the embedded timezone offset in
minutes when the string carried one (after the Z to +00:00 replacement a
trailing Z is some 0; a naive string is none). -/
structure Timestamp where
  wall : Nat
  offset : Option Int
deriving DecidableEq

/-- busy.replace(tzinfo=None): drop the embedded offset and keep the
wall-clock value unchanged (truncation, not conversion to UTC). -/
def stripTz (t : Timestamp) : Nat := t.wall

/-- One busy interval handed to is_slot_available: the dict
with keys start and end built by get_busy_time_slots. -/
structure BusyInterval where
  start : Timestamp
  stop : Timestamp
deriving DecidableEq

/-! ### Type catalog (config/appointment_types.py) -/

structure ApptInfo where
  name : String
  duration : Nat
  description : String
deriving DecidableEq

/-- APPOINTMENT_TYPES, in declaration order. -/
def APPOINTMENT_TYPES : List (String × ApptInfo) :=
  [("general_consultation",
      ⟨"General Consultation", 30, "Standard medical consultation"⟩),
   ("follow_up",
      ⟨"Follow-up", 15, "Follow-up appointment for previous consultation"⟩),
   ("physical_exam",
      ⟨"Physical Exam", 45, "Comprehensive physical examination"⟩),
   ("specialist_consultation",
      ⟨"Specialist Consultation", 60, "Detailed consultation with specialist"⟩)]

def get_appointment_duration (t : String) : Option Nat :=
  (APPOINTMENT_TYPES.lookup t).map (fun i => i.duration)

def get_appointment_info (t : String) : Option ApptInfo :=
  APPOINTMENT_TYPES.lookup t

/-! ### Time and date parsing (datetime.strptime)

CPython strptime matches %H against 2[0-3]|[0-1]\d|\d, %M against [0-5]\d|\d,
%Y against exactly four digits, %m against 1[0-2]|0[1-9]|[1-9] and %d against
3[01]|[12]\d|0[1-9]|[1-9], requires the whole string to be consumed, and the
date constructor then validates the day against the month length and the year
against MINYEAR = 1.  The parsers below implement exactly that grammar. -/

def digitsVal (cs : List Char) : Nat :=
  cs.foldl (fun a c => a * 10 + (c.toNat - 48)) 0

def allDigits (cs : List Char) : Bool := cs.all (fun c => c.isDigit)

/-- str.split(sep) for a one-character separator, on the character list of
the string (empty pieces are kept, exactly as in Python). -/
def splitOnChar (sep : Char) : List Char → List (List Char)
  | [] => [[]]
  | c :: cs =>
    if c = sep then [] :: splitOnChar sep cs
    else
      match splitOnChar sep cs with
      | piece :: rest => (c :: piece) :: rest
      | [] => [[c]]

/-- datetime.strptime(s, "%H:%M"), returned as minutes since midnight. -/
def parse_time_HM (s : String) : Option Nat :=
  match splitOnChar ':' s.toList with
  | [hc, mc] =>
    if allDigits hc ∧ allDigits mc ∧
        1 ≤ hc.length ∧ hc.length ≤ 2 ∧ 1 ≤ mc.length ∧ mc.length ≤ 2 ∧
        digitsVal hc ≤ 23 ∧ digitsVal mc ≤ 59 then
      some (60 * digitsVal hc + digitsVal mc)
    else none
  | _ => none

def isLeap (y : Nat) : Bool := y % 4 == 0 && (y % 100 != 0 || y % 400 == 0)

def daysInMonth (y m : Nat) : Nat :=
  if m = 2 then (if isLeap y then 29 else 28)
  else if m = 4 ∨ m = 6 ∨ m = 9 ∨ m = 11 then 30
  else 31

/-- datetime.strptime(s, "%Y-%m-%d"), returned as (year, month, day). -/
def parse_date_Ymd (s : String) : Option (Nat × Nat × Nat) :=
  match splitOnChar '-' s.toList with
  | [yc, mc, dc] =>
    if allDigits yc ∧ allDigits mc ∧ allDigits dc ∧ yc.length = 4 ∧
        1 ≤ mc.length ∧ mc.length ≤ 2 ∧ 1 ≤ dc.length ∧ dc.length ≤ 2 ∧
        1 ≤ digitsVal yc ∧ 1 ≤ digitsVal mc ∧ digitsVal mc ≤ 12 ∧
        1 ≤ digitsVal dc ∧
        digitsVal dc ≤ daysInMonth (digitsVal yc) (digitsVal mc) then
      some (digitsVal yc, digitsVal mc, digitsVal dc)
    else none
  | _ => none

/-- Cumulative days before month m in a non-leap year (1-based month). -/
def daysBeforeMonth (m : Nat) : Nat :=
  [0, 0, 31, 59, 90, 120, 151, 181, 212, 243, 273, 304, 334].getD m 0

/-- Day index of a Gregorian date: date(y,m,d).toordinal() - 1, so that
0001-01-01 is day 0 and the weekday index is the value mod 7 (0 = Monday). -/
def dateIndex (y m d : Nat) : Nat :=
  let n := y - 1
  365 * n + n / 4 + n / 400 - n / 100
    + daysBeforeMonth m + (if 3 ≤ m ∧ isLeap y then 1 else 0) + (d - 1)

/-- strftime "%H:%M" helper: two-digit zero padding. -/
def pad2 (n : Nat) : String := (if n < 10 then "0" else "") ++ toString n

/-- strftime("%H:%M") of an absolute-minutes datetime. -/
def formatHM (t : Nat) : String := pad2 (t % 1440 / 60) ++ ":" ++ pad2 (t % 60)

/-! ### Working hours (doctor_schedule.py) -/

/-- One entry of the working-hours dict: start and end as "HH:MM" strings
(None on the day off) plus the available flag. -/
structure DayHours where
  start : Option String
  stop : Option String
  available : Bool
deriving DecidableEq

/-- Weekday of a date index; 0 = monday, ..., 6 = sunday. -/
def weekday (date : Nat) : Fin 7 := ⟨date % 7, Nat.mod_lt _ (by omega)⟩

/-- DoctorSchedule.get_working_hours, keyed by weekday index instead of the
lowercased strftime("%A") day name (0 = monday, ..., 6 = sunday). -/
def get_working_hours : Fin 7 → DayHours
  | 0 => ⟨some "09:00", some "17:00", true⟩
  | 1 => ⟨some "09:00", some "17:00", true⟩
  | 2 => ⟨some "09:00", some "17:00", true⟩
  | 3 => ⟨some "09:00", some "17:00", true⟩
  | 4 => ⟨some "09:00", some "17:00", true⟩
  | 5 => ⟨some "10:00", some "14:00", true⟩
  | 6 => ⟨none, none, false⟩

/-- DoctorSchedule.is_working_day. -/
def is_working_day (date : Nat) : Bool := (get_working_hours (weekday date)).available

/-- The parsed working-hours start of a weekday (0 when the entry is None;
the Python code only reads it on working days, where it is always set). -/
def workStart (w : Fin 7) : Nat :=
  ((get_working_hours w).start.bind parse_time_HM).getD 0

/-- The parsed working-hours end of a weekday (0 when the entry is None). -/
def workStop (w : Fin 7) : Nat :=
  ((get_working_hours w).stop.bind parse_time_HM).getD 0

/-! ### Slot engine (available_slots.py) -/

/-- Loop body of generate_time_slots.  The fuel argument bounds the number of
iterations; the Python while loop runs at most stop - cur times whenever the
interval is at least one minute, so fuel = stop - cur is always enough at the
call site (the engine always passes interval = 15). -/
def genSlotsAux : Nat → Nat → Nat → Nat → List Nat
  | 0, _, _, _ => []
  | fuel + 1, cur, stop, interval =>
      if cur < stop then cur :: genSlotsAux fuel (cur + interval) stop interval
      else []

/-- AvailableSlots.generate_time_slots: every datetime
date*1440 + start_time + k*interval strictly below the end of the window. -/
def generate_time_slots (start_time stop_time : Nat) (date : Nat)
    (interval : Nat) : List Nat :=
  let cur := date * 1440 + start_time
  let stop := date * 1440 + stop_time
  genSlotsAux (stop - cur) cur stop interval

/-- AvailableSlots.is_slot_available: false iff some busy interval overlaps
[slot_start, slot_start + duration) under the half-open test, the busy
endpoints being compared after their offsets are stripped. -/
def is_slot_available (slot_start duration : Nat)
    (busy_slots : List BusyInterval) : Bool :=
  let slot_end := slot_start + duration
  busy_slots.all fun busy =>
    ! (decide (slot_start < stripTz busy.stop) && decide (slot_end > stripTz busy.start))

/-- One element of the available_slots list: the dict with the two
strftime("%H:%M") strings and the isoformat datetime, the latter modelled by
its absolute-minutes value. -/
structure Slot where
  start_time : String
  end_time : String
  dt : Nat
deriving DecidableEq

/-- The three dict shapes get_available_slots can return: the error dict, the
not-a-working-day dict, and the full working-day dict. -/
inductive GetSlotsResult where
  | error (message : String)
  | nonWorking (date : Nat) (appointment_type : String) (duration : Nat)
      (available_slots : List Slot) (message : String)
  | working (date : Nat) (day_of_week : Fin 7) (appointment_type : String)
      (duration : Nat) (available_slots : List Slot) (total_slots : Nat)
deriving DecidableEq

/-- result.get("available_slots"): the error dict has no such key, so the
lookup is falsy there exactly as an empty list is. -/
def availableSlotsOf : GetSlotsResult → List Slot
  | .error _ => []
  | .nonWorking _ _ _ s _ => s
  | .working _ _ _ _ s _ => s

/-- Truthiness of result.get("available_slots"). -/
def hasSlots (r : GetSlotsResult) : Bool := !(availableSlotsOf r).isEmpty

/-- result["date"] (only ever read on results that have the key). -/
def dateOf : GetSlotsResult → Nat
  | .error _ => 0
  | .nonWorking d _ _ _ _ => d
  | .working d _ _ _ _ _ => d

/-- result["appointment_type"] (only ever read on working-day results). -/
def typeNameOf : GetSlotsResult → String
  | .error _ => ""
  | .nonWorking _ t _ _ _ => t
  | .working _ _ t _ _ _ => t

/-- result["duration"] (only ever read on non-error results). -/
def durationOf : GetSlotsResult → Nat
  | .error _ => 0
  | .nonWorking _ _ d _ _ => d
  | .working _ _ _ d _ _ => d

/-- AvailableSlots.get_available_slots.  The busy_slots parameter stands for
the list self.doctor_schedule.get_busy_time_slots(date) returns for this date;
the slot interval is the constructor constant 15.  The duration guard mirrors
Python falsiness: None and 0 both fail "if not duration". -/
def get_available_slots (date : Nat) (appointment_type : String)
    (busy_slots : List BusyInterval) : GetSlotsResult :=
  match get_appointment_duration appointment_type with
  | none => .error ("Invalid appointment type: " ++ appointment_type)
  | some duration =>
    if duration = 0 then .error ("Invalid appointment type: " ++ appointment_type)
    else if ¬ is_working_day date then
      .nonWorking date appointment_type duration [] "Not a working day"
    else
      let w := weekday date
      let start_time := workStart w
      let stop_time := workStop w
      let all_slots := generate_time_slots start_time stop_time date 15
      let available_slots :=
        (all_slots.filter fun slot =>
            is_slot_available slot duration busy_slots
              && decide ((slot + duration) % 1440 ≤ stop_time)).map
          fun slot =>
            { start_time := formatHM slot
              end_time := formatHM (slot + duration)
              dt := slot }
      .working date w
        (((APPOINTMENT_TYPES.lookup appointment_type).map (fun i => i.name)).getD "")
        duration available_slots available_slots.length

/-- Loop body of get_available_slots_range: one iteration per day, keeping a
day only when its available_slots value is truthy.  busyOf gives, per date,
the busy list the schedule source returns for that date. -/
def rangeAux (appointment_type : String) (busyOf : Nat → List BusyInterval) :
    Nat → Nat → List GetSlotsResult
  | 0, _ => []
  | n + 1, cur =>
      let slots := get_available_slots cur appointment_type (busyOf cur)
      if hasSlots slots then slots :: rangeAux appointment_type busyOf n (cur + 1)
      else rangeAux appointment_type busyOf n (cur + 1)

/-- AvailableSlots.get_available_slots_range: the while loop runs over the
days start_date, start_date + 1, ..., end_date inclusive. -/
def get_available_slots_range (start_date end_date : Nat)
    (appointment_type : String) (busyOf : Nat → List BusyInterval) :
    List GetSlotsResult :=
  rangeAux appointment_type busyOf (end_date + 1 - start_date) start_date

/-- The two dict shapes get_next_available_slot can return. -/
inductive NextSlotResult where
  | found (date : Nat) (slot : Slot) (appointment_type : String) (duration : Nat)
  | notFound (message : String)
deriving DecidableEq

/-- AvailableSlots.get_next_available_slot: search the 30-day window and take
the first slot of the first returned day. -/
def get_next_available_slot (appointment_type : String) (start_from : Nat)
    (busyOf : Nat → List BusyInterval) : NextSlotResult :=
  let end_date := start_from + 30
  let slots_range := get_available_slots_range start_from end_date appointment_type busyOf
  match slots_range with
  | [] => .notFound ("No available slots found in the next 30 days for " ++ appointment_type)
  | first_day :: _ =>
    match availableSlotsOf first_day with
    | [] => .notFound ("No available slots found in the next 30 days for " ++ appointment_type)
    | first_slot :: _ =>
        .found (dateOf first_day) first_slot (typeNameOf first_day) (durationOf first_day)

/-! ### Schedule source over the external fetch (doctor_schedule.py,
calendly_client.py) -/

/-- One event of the Calendly collection, already holding the parsed
timestamps its start_time / end_time ISO strings denote. -/
structure CalendlyEvent where
  uri : String
  name : String
  start_time : Timestamp
  end_time : Timestamp
  status : String
deriving DecidableEq

/-- The response dict of CalendlyAPI.get_scheduled_events: an error key is
present on transport failure (the uniform error shape of _make_request), a
collection key on success. -/
structure CalendlyResponse where
  error : Option String
  collection : Option (List CalendlyEvent)

/-- One element of the appointments list DoctorSchedule builds. -/
structure Appointment where
  id : String
  name : String
  start_time : Timestamp
  end_time : Timestamp
  status : String
deriving DecidableEq

/-- DoctorSchedule.get_existing_appointments, parametrised by the response of
the external fetch it performs: on an error-shaped response it prints the
message and returns the empty list. -/
def get_existing_appointments (response : CalendlyResponse) : List Appointment :=
  if response.error.isSome then []
  else
    match response.collection with
    | some events =>
        events.map fun e =>
          { id := String.mk (((splitOnChar '/' e.uri.toList).getLast?).getD [])
            name := e.name
            start_time := e.start_time
            end_time := e.end_time
            status := e.status }
    | none => []

/-- DoctorSchedule.get_busy_time_slots, parametrised by the same response:
keep the active appointments and project out their start and end times. -/
def get_busy_time_slots (response : CalendlyResponse) : List BusyInterval :=
  ((get_existing_appointments response).filter fun a => a.status == "active").map
    fun a => { start := a.start_time, stop := a.end_time }

/-! ### Booking service (appointment_booking.py) -/

/-- The appointment_data dict handed to the booking service: none models a
missing key, some "" a present-but-empty value (both falsy in Python). -/
structure BookingRequest where
  appointment_type : Option String
  date : Option String
  time : Option String
  patient_name : Option String
  patient_email : Option String
  patient_phone : Option String
  notes : Option String

/-- Truthiness of field in data and data[field] for a string field. -/
def present (v : Option String) : Bool :=
  match v with
  | none => false
  | some s => !s.toList.isEmpty

/-- AppointmentBooking.validate_appointment_data, returning the
(is_valid, error_message) pair. -/
def validate_appointment_data (d : BookingRequest) : Bool × Option String :=
  if !present d.appointment_type then
    (false, some "Missing required field: appointment_type")
  else if !present d.date then (false, some "Missing required field: date")
  else if !present d.time then (false, some "Missing required field: time")
  else if !present d.patient_name then
    (false, some "Missing required field: patient_name")
  else if !present d.patient_email then
    (false, some "Missing required field: patient_email")
  else if (APPOINTMENT_TYPES.lookup (d.appointment_type.getD "")).isNone then
    (false, some ("Invalid appointment type: " ++ d.appointment_type.getD ""))
  else if (parse_date_Ymd (d.date.getD "")).isNone then
    (false, some "Invalid date format. Use YYYY-MM-DD")
  else if (parse_time_HM (d.time.getD "")).isNone then
    (false, some "Invalid time format. Use HH:MM")
  else if !((d.patient_email.getD "").toList.contains '@') then
    (false, some "Invalid email format")
  else (true, none)

/-- AppointmentBooking.check_slot_availability.  The strptime calls sit
outside any try block, so an unparseable input raises in Python; every caller
validates first, which makes that branch unreachable (modelled by the
ValueError result). -/
def check_slot_availability (appointment_type date_str time_str : String)
    (busyOf : Nat → List BusyInterval) : Bool × String :=
  match parse_date_Ymd date_str, parse_time_HM time_str with
  | some (y, m, d), some _ =>
    let idx := dateIndex y m d
    let slots_info := get_available_slots idx appointment_type (busyOf idx)
    match slots_info with
    | .error msg => (false, msg)
    | _ =>
      if (availableSlotsOf slots_info).isEmpty then
        (false, "No available slots on " ++ date_str)
      else if (availableSlotsOf slots_info).any
          (fun s => s.start_time == time_str) then
        (true, "Slot is available")
      else
        (false, "Time slot " ++ time_str ++ " is not available on " ++ date_str)
  | _, _ => (false, "ValueError")

/-- The appointment_details dict of a successful booking (patient subdict
flattened into the three patient fields). -/
structure AppointmentDetails where
  type : String
  duration : Nat
  date : String
  start_time : String
  end_time : String
  patient_name : String
  patient_email : String
  patient_phone : String
  notes : String
  status : String
deriving DecidableEq

/-- The two shapes of the create_appointment result dict. -/
inductive BookingResult where
  | failure (error : String)
  | success (booking_id : String) (details : AppointmentDetails) (message : String)
deriving DecidableEq

/-- AppointmentBooking._simulate_booking, with the uuid.uuid4() draw passed in
as booking_id. -/
def simulate_booking (d : BookingRequest) (info : ApptInfo)
    (start_dt : Nat) (booking_id : String) : BookingResult :=
  let end_dt := start_dt + info.duration
  .success booking_id
    { type := info.name
      duration := info.duration
      date := d.date.getD ""
      start_time := d.time.getD ""
      end_time := formatHM end_dt
      patient_name := d.patient_name.getD ""
      patient_email := d.patient_email.getD ""
      patient_phone := d.patient_phone.getD "N/A"
      notes := d.notes.getD ""
      status := "scheduled" }
    "Appointment booked successfully"

/-- AppointmentBooking.create_appointment, parametrised by the external busy
lists (per date) and the uuid draw.  The final match is unreachable after
validation succeeds: Python would raise a TypeError subscripting None. -/
def create_appointment (d : BookingRequest) (busyOf : Nat → List BusyInterval)
    (fresh_uuid : String) : BookingResult :=
  match validate_appointment_data d with
  | (false, msg) => .failure (msg.getD "")
  | (true, _) =>
    let avail := check_slot_availability (d.appointment_type.getD "")
        (d.date.getD "") (d.time.getD "") busyOf
    if !avail.1 then .failure avail.2
    else
      match get_appointment_info (d.appointment_type.getD ""),
          parse_date_Ymd (d.date.getD ""), parse_time_HM (d.time.getD "") with
      | some info, some (y, m, dd), some tmin =>
          simulate_booking d info (dateIndex y m dd * 1440 + tmin) fresh_uuid
      | _, _, _ => .failure "TypeError"

/-! ### Specification-side validation checklist

Modelled from the spec wording (section 4.2, validate): the five checks in
their stated order with their error messages, each a (passes, message) pair;
the required-fields check is itself a loop over the five fields in the order
of the required_fields list.  validate_appointment_data is proved to refine
the first-failure semantics of this list. -/

def specChecklist (d : BookingRequest) : List (Bool × String) :=
  [(present d.appointment_type, "Missing required field: appointment_type"),
   (present d.date, "Missing required field: date"),
   (present d.time, "Missing required field: time"),
   (present d.patient_name, "Missing required field: patient_name"),
   (present d.patient_email, "Missing required field: patient_email"),
   ((APPOINTMENT_TYPES.lookup (d.appointment_type.getD "")).isSome,
      "Invalid appointment type: " ++ d.appointment_type.getD ""),
   ((parse_date_Ymd (d.date.getD "")).isSome, "Invalid date format. Use YYYY-MM-DD"),
   ((parse_time_HM (d.time.getD "")).isSome, "Invalid time format. Use HH:MM"),
   ((d.patient_email.getD "").toList.contains '@', "Invalid email format")]

/-- Fail-fast evaluation of an ordered checklist: the message of the first
check that does not pass, none when all pass. -/
def firstFailure : List (Bool × String) → Option String
  | [] => none
  | (ok, msg) :: rest => if ok then firstFailure rest else some msg

/-! ## Helper lemmas -/

theorem genSlotsAux_mem_ge {fuel cur stop interval x : Nat}
    (hx : x ∈ genSlotsAux fuel cur stop interval) : cur ≤ x := by
  induction fuel generalizing cur with
  | zero => simp [genSlotsAux] at hx
  | succ n ih =>
    simp only [genSlotsAux] at hx
    split at hx
    · rcases List.mem_cons.mp hx with h | h
      · omega
      · have := ih h
        omega
    · simp at hx

theorem genSlotsAux_mem_lt {fuel cur stop interval x : Nat}
    (hx : x ∈ genSlotsAux fuel cur stop interval) : x < stop := by
  induction fuel generalizing cur with
  | zero => simp [genSlotsAux] at hx
  | succ n ih =>
    simp only [genSlotsAux] at hx
    split at hx
    · rcases List.mem_cons.mp hx with h | h
      · omega
      · exact ih h
    · simp at hx

theorem genSlotsAux_pairwise {fuel cur stop interval : Nat} (hi : 0 < interval) :
    (genSlotsAux fuel cur stop interval).Pairwise (· < ·) := by
  induction fuel generalizing cur with
  | zero => simp [genSlotsAux]
  | succ n ih =>
    simp only [genSlotsAux]
    split
    · refine List.pairwise_cons.mpr ⟨fun y hy => ?_, ih⟩
      have := genSlotsAux_mem_ge hy
      omega
    · exact List.Pairwise.nil

/-- Every catalog duration is positive and at most an hour. -/
theorem duration_bound {t : String} {d : Nat}
    (h : get_appointment_duration t = some d) : 0 < d ∧ d ≤ 60 := by
  simp only [get_appointment_duration, APPOINTMENT_TYPES, List.lookup] at h
  repeat' split at h
  all_goals simp_all [Option.map]
  all_goals omega

/-- On every available weekday of the hard-coded table the working window is
nonempty and closes by 17:00. -/
theorem working_window_bounds (w : Fin 7)
    (h : (get_working_hours w).available = true) :
    workStart w < workStop w ∧ workStop w ≤ 1020 := by
  revert w
  decide

/-- The Boolean overlap scan of is_slot_available, as a statement about every
busy interval. -/
theorem is_slot_available_iff {x d : Nat} {busy : List BusyInterval} :
    is_slot_available x d busy = true ↔
      ∀ b ∈ busy, ¬ (x < stripTz b.stop ∧ x + d > stripTz b.start) := by
  unfold is_slot_available
  rw [List.all_eq_true]
  refine forall_congr' fun b => ?_
  refine imp_congr_right fun _ => ?_
  rw [Bool.not_eq_eq_eq_not, Bool.not_true, Bool.and_eq_false_iff]
  simp [not_and, not_lt, imp_iff_not_or]

/-- Unpacking membership in the slot list of a get_available_slots result:
the underlying candidate passed the availability filter and the closing-time
check, and came from the candidate grid of the day's working window. -/
theorem mem_available_slots {date : Nat} {atype : String}
    {busy : List BusyInterval} {d : Nat}
    (hd : get_appointment_duration atype = some d) {s : Slot}
    (hs : s ∈ availableSlotsOf (get_available_slots date atype busy)) :
    is_working_day date = true ∧
      ∃ x, s = ⟨formatHM x, formatHM (x + d), x⟩ ∧
        x ∈ generate_time_slots (workStart (weekday date))
          (workStop (weekday date)) date 15 ∧
        is_slot_available x d busy = true ∧
        (x + d) % 1440 ≤ workStop (weekday date) := by
  unfold get_available_slots at hs
  split at hs
  · simp [availableSlotsOf] at hs
  · next duration heq =>
    rw [hd] at heq
    obtain rfl : duration = d := by injection heq with h; exact h.symm
    split at hs
    · simp [availableSlotsOf] at hs
    · split at hs
      · simp [availableSlotsOf] at hs
      · next hw =>
        have hw' : is_working_day date = true := by
          by_contra hc
          exact hw (by simpa using hc)
        refine ⟨hw', ?_⟩
        simp only [availableSlotsOf, List.mem_map, List.mem_filter,
          Bool.and_eq_true, decide_eq_true_eq] at hs
        obtain ⟨x, ⟨hmem, havail, hstop⟩, rfl⟩ := hs
        exact ⟨x, rfl, hmem, havail, hstop⟩

/-- Claim C1: every slot returned by get_available_slots fails the half-open
overlap test against every fetched busy interval, the busy timestamps being
compared after their embedded offsets are stripped (wall-clock truncation). -/
theorem slots_never_overlap_busy (date : Nat) (atype : String)
    (busy : List BusyInterval) (d : Nat)
    (hd : get_appointment_duration atype = some d) (s : Slot)
    (hs : s ∈ availableSlotsOf (get_available_slots date atype busy))
    (b : BusyInterval) (hb : b ∈ busy) :
    ¬ (s.dt < stripTz b.stop ∧ s.dt + d > stripTz b.start) := by
  obtain ⟨-, x, rfl, -, havail, -⟩ := mem_available_slots hd hs
  have := is_slot_available_iff.mp havail b hb
  dsimp only
  exact this

/-- Claim C1 witness: on a Monday with the busy interval 09:30 to 10:00 and a
30-minute consultation, the returned 09:00 slot does not overlap the busy
interval. -/
theorem slots_never_overlap_busy_witness :
    ¬ ((Slot.mk "09:00" "09:30" 540).dt <
          stripTz (Timestamp.mk 600 (some 0)) ∧
        (Slot.mk "09:00" "09:30" 540).dt + 30 >
          stripTz (Timestamp.mk 570 (some 0))) :=
  slots_never_overlap_busy 0 "general_consultation"
    [⟨⟨570, some 0⟩, ⟨600, some 0⟩⟩] 30 (by decide)
    (Slot.mk "09:00" "09:30" 540) (by decide)
    ⟨⟨570, some 0⟩, ⟨600, some 0⟩⟩ (by decide)

/-- Claim C2: every returned slot starts at or after the working-hours start
and ends (start plus catalog duration) at or before the working-hours end of
the day. -/
theorem slots_within_working_hours (date : Nat) (atype : String)
    (busy : List BusyInterval) (d : Nat)
    (hd : get_appointment_duration atype = some d) (s : Slot)
    (hs : s ∈ availableSlotsOf (get_available_slots date atype busy)) :
    date * 1440 + workStart (weekday date) ≤ s.dt ∧
      s.dt + d ≤ date * 1440 + workStop (weekday date) := by
  obtain ⟨hw, x, rfl, hmem, -, hstop⟩ := mem_available_slots hd hs
  have hdb := duration_bound hd
  have hwb := working_window_bounds (weekday date) hw
  unfold generate_time_slots at hmem
  have h1 := genSlotsAux_mem_ge hmem
  have h2 := genSlotsAux_mem_lt hmem
  dsimp only
  omega

/-- Claim C2 witness: on a Monday the returned 09:00 slot of a 30-minute
consultation starts no earlier than 09:00 and ends by 17:00. -/
theorem slots_within_working_hours_witness :
    0 * 1440 + workStart (weekday 0) ≤ (Slot.mk "09:00" "09:30" 540).dt ∧
      (Slot.mk "09:00" "09:30" 540).dt + 30 ≤ 0 * 1440 + workStop (weekday 0) :=
  slots_within_working_hours 0 "general_consultation"
    [⟨⟨570, some 0⟩, ⟨600, some 0⟩⟩] 30 (by decide)
    (Slot.mk "09:00" "09:30" 540) (by decide)

/-- Claim C4: on a non-working weekday, for a known appointment type,
get_available_slots returns the non-error not-a-working-day result with an
empty slot list. -/
theorem non_working_day_empty (date : Nat) (atype : String)
    (busy : List BusyInterval) (d : Nat)
    (hd : get_appointment_duration atype = some d)
    (hw : is_working_day date = false) :
    get_available_slots date atype busy =
      .nonWorking date atype d [] "Not a working day" := by
  have h0 := (duration_bound hd).1
  unfold get_available_slots
  split
  · next heq => rw [hd] at heq; exact absurd heq (by simp)
  · next duration heq =>
    rw [hd] at heq
    obtain rfl : duration = d := by injection heq with h; exact h.symm
    rw [if_neg (by omega), if_pos (by simp [hw])]

/-- Claim C4 witness: a Sunday (weekday index 6) with a follow-up request. -/
theorem non_working_day_empty_witness :
    get_available_slots 6 "follow_up" [] =
      .nonWorking 6 "follow_up" 15 [] "Not a working day" :=
  non_working_day_empty 6 "follow_up" [] 15 (by decide) (by decide)

/-- Claim C9: get_available_slots is a pure function of the date, the
appointment type and the fetched busy set, so two calls with identical inputs
and an identical busy set return identical results. -/
theorem available_slots_deterministic (date : Nat) (atype : String)
    (busy1 busy2 : List BusyInterval) (h : busy1 = busy2) :
    get_available_slots date atype busy1 = get_available_slots date atype busy2 := by
  rw [h]

/-- Claim C9 witness. -/
theorem available_slots_deterministic_witness :
    get_available_slots 0 "follow_up" [] = get_available_slots 0 "follow_up" [] :=
  available_slots_deterministic 0 "follow_up" [] [] rfl

/-- Claim C3, amended: on an error-shaped fetch response the schedule layer
prints the message and returns the empty appointment list, so the busy list
is empty and the caller cannot distinguish a fetch failure from a free day. -/
theorem fetch_error_yields_empty_busy (response : CalendlyResponse)
    (h : response.error.isSome = true) :
    get_existing_appointments response = [] ∧
      get_busy_time_slots response = [] := by
  have h1 : get_existing_appointments response = [] := by
    unfold get_existing_appointments
    rw [if_pos h]
  refine ⟨h1, ?_⟩
  unfold get_busy_time_slots
  rw [h1]
  rfl

/-- Claim C3, amended, witness. -/
theorem fetch_error_yields_empty_busy_witness :
    get_existing_appointments ⟨some "API connection failure", none⟩ = [] ∧
      get_busy_time_slots ⟨some "API connection failure", none⟩ = [] :=
  fetch_error_yields_empty_busy ⟨some "API connection failure", none⟩ rfl

/-- Claim C3 counterexample: on a concrete error-shaped response the busy
list is the empty list (no result-shaped error reaches the caller, the
return type of the schedule layer being a bare list), and the availability
computation then treats the fetch-error day as fully free: a Monday yields a
nonempty slot list. -/
theorem fetch_error_masked_counterexample :
    get_busy_time_slots ⟨some "API connection failure", none⟩ = [] ∧
      availableSlotsOf (get_available_slots 0 "follow_up"
        (get_busy_time_slots ⟨some "API connection failure", none⟩)) ≠ [] := by
  refine ⟨rfl, ?_⟩
  decide

/-- Claim C5: get_available_slots_range is exactly the per-day results of
get_available_slots over the ascending inclusive day list, filtered to the
days whose available_slots value is truthy; consequently no returned day has
an empty slot list. -/
theorem rangeAux_eq (atype : String) (busyOf : Nat → List BusyInterval) :
    ∀ n cur, rangeAux atype busyOf n cur =
      ((List.range' cur n).map fun day =>
          get_available_slots day atype (busyOf day)).filter hasSlots := by
  intro n
  induction n with
  | zero => intro cur; simp [rangeAux]
  | succ k ih =>
    intro cur
    rw [List.range'_succ]
    simp only [rangeAux, List.map_cons, List.filter_cons, ih]

/-- Claim C5 main theorem (see rangeAux_eq for the loop unrolling). -/
theorem range_ascending_and_nonempty (s e : Nat) (atype : String)
    (busyOf : Nat → List BusyInterval) :
    get_available_slots_range s e atype busyOf =
      ((List.range' s (e + 1 - s)).map fun day =>
          get_available_slots day atype (busyOf day)).filter hasSlots ∧
      ∀ r ∈ get_available_slots_range s e atype busyOf,
        availableSlotsOf r ≠ [] := by
  refine ⟨rangeAux_eq atype busyOf (e + 1 - s) s, fun r hr => ?_⟩
  unfold get_available_slots_range at hr
  rw [rangeAux_eq] at hr
  have := List.of_mem_filter hr
  simpa [hasSlots, List.isEmpty_iff] using this

/-- Claim C10: for an appointment type missing from the catalog,
get_next_available_slot reports the generic no-slots-found message instead of
surfacing the invalid-type error: every per-day error result lacks a truthy
available_slots value, so the whole window is dropped. -/
theorem invalid_type_reports_no_slots (atype : String) (start_from : Nat)
    (busyOf : Nat → List BusyInterval)
    (h : get_appointment_duration atype = none) :
    get_next_available_slot atype start_from busyOf =
      .notFound ("No available slots found in the next 30 days for " ++ atype) := by
  have herr : ∀ day busy, get_available_slots day atype busy =
      .error ("Invalid appointment type: " ++ atype) := by
    intro day busy
    unfold get_available_slots
    rw [h]
  have hnil : get_available_slots_range start_from (start_from + 30) atype busyOf
      = [] := by
    unfold get_available_slots_range
    rw [rangeAux_eq]
    rw [List.filter_eq_nil_iff]
    intro r hr
    obtain ⟨day, -, rfl⟩ := List.mem_map.mp hr
    rw [herr]
    simp [hasSlots, availableSlotsOf]
  simp only [get_next_available_slot, hnil]

/-- Claim C10 witness: an unknown appointment type id. -/
theorem invalid_type_reports_no_slots_witness :
    get_next_available_slot "dermatology" 0 (fun _ => []) =
      .notFound ("No available slots found in the next 30 days for " ++
        "dermatology") :=
  invalid_type_reports_no_slots "dermatology" 0 (fun _ => []) (by decide)

/-- A falsy available_slots value is the empty list. -/
theorem availableSlotsOf_eq_nil_of_hasSlots_false {r : GetSlotsResult}
    (h : hasSlots r = false) : availableSlotsOf r = [] := by
  simp only [hasSlots, Bool.not_eq_false'] at h
  exact List.isEmpty_iff.mp h

/-- The slot list of any get_available_slots result is strictly ascending in
the slot datetime (the grid ascends and filter and map preserve the order). -/
theorem slots_pairwise (date : Nat) (atype : String) (busy : List BusyInterval) :
    (availableSlotsOf (get_available_slots date atype busy)).Pairwise
      (fun a b => a.dt < b.dt) := by
  unfold get_available_slots
  split
  · simp [availableSlotsOf]
  · split
    · simp [availableSlotsOf]
    · split
      · simp [availableSlotsOf]
      · simp only [availableSlotsOf]
        rw [List.pairwise_map]
        refine List.Pairwise.sublist (List.filter_sublist _) ?_
        exact genSlotsAux_pairwise (by omega)

/-- The three shapes a get_available_slots result can take; in the two
non-error shapes the date field is the queried date. -/
theorem get_available_slots_shape (date : Nat) (atype : String)
    (busy : List BusyInterval) :
    (∃ msg, get_available_slots date atype busy = .error msg) ∨
    (∃ t d, get_available_slots date atype busy =
      .nonWorking date t d [] "Not a working day") ∨
    (∃ w t d sl n, get_available_slots date atype busy = .working date w t d sl n) := by
  unfold get_available_slots
  split
  · exact Or.inl ⟨_, rfl⟩
  · split
    · exact Or.inl ⟨_, rfl⟩
    · split
      · exact Or.inr (Or.inl ⟨_, _, rfl⟩)
      · exact Or.inr (Or.inr ⟨_, _, _, _, _, rfl⟩)

/-- A result with a truthy slot list came from the working branch, whose date
field is the queried date. -/
theorem hasSlots_dateOf {date : Nat} {atype : String} {busy : List BusyInterval}
    (h : hasSlots (get_available_slots date atype busy) = true) :
    dateOf (get_available_slots date atype busy) = date := by
  rcases get_available_slots_shape date atype busy with ⟨msg, he⟩ |
      ⟨t, d, he⟩ | ⟨w, t, d, sl, n, he⟩ <;> rw [he]
  · rw [he] at h
    simp [hasSlots, availableSlotsOf] at h
  · rfl
  · rfl

/-- The head of a nonempty range result is the per-day result of the first
day (at offset k) with a truthy slot list; every earlier day has none. -/
theorem rangeAux_head (atype : String) (busyOf : Nat → List BusyInterval) :
    ∀ n cur first rest, rangeAux atype busyOf n cur = first :: rest →
      ∃ k, k < n ∧
        first = get_available_slots (cur + k) atype (busyOf (cur + k)) ∧
        hasSlots first = true ∧
        ∀ j < k, hasSlots (get_available_slots (cur + j) atype
          (busyOf (cur + j))) = false := by
  intro n
  induction n with
  | zero => intro cur first rest h; simp [rangeAux] at h
  | succ m ih =>
    intro cur first rest h
    simp only [rangeAux] at h
    by_cases hc : hasSlots (get_available_slots cur atype (busyOf cur)) = true
    · rw [if_pos hc] at h
      obtain ⟨h1, -⟩ := List.cons_eq_cons.mp h
      refine ⟨0, by omega, ?_, ?_, ?_⟩
      · rw [← h1]; norm_num
      · rw [← h1]; exact hc
      · intro j hj; omega
    · rw [if_neg hc] at h
      obtain ⟨k, hk, hfirst, hhas, hmin⟩ := ih (cur + 1) first rest h
      refine ⟨k + 1, by omega, ?_, hhas, ?_⟩
      · rw [hfirst]
        have : cur + 1 + k = cur + (k + 1) := by omega
        rw [this]
      · intro j hj
        match j, hj with
        | 0, _ =>
          simpa using (Bool.not_eq_true _).mp hc
        | j + 1, hj =>
          have := hmin j (by omega)
          have heq : cur + 1 + j = cur + (j + 1) := by omega
          rwa [heq] at this

/-- Claim C6: over the inclusive 30-day window starting at the search date,
get_next_available_slot returns the no-slots message when every day in the
window has an empty slot list, and otherwise returns found with the
lexicographically earliest (date, start-time) pair among all slots of all
days in the window. -/
theorem next_slot_earliest (atype : String) (start_from : Nat)
    (busyOf : Nat → List BusyInterval) :
    ((∀ day, start_from ≤ day → day ≤ start_from + 30 →
        availableSlotsOf (get_available_slots day atype (busyOf day)) = []) →
      get_next_available_slot atype start_from busyOf =
        .notFound ("No available slots found in the next 30 days for " ++ atype)) ∧
    (∀ day0, start_from ≤ day0 → day0 ≤ start_from + 30 →
      availableSlotsOf (get_available_slots day0 atype (busyOf day0)) ≠ [] →
      ∃ date slot tname dur,
        get_next_available_slot atype start_from busyOf =
          .found date slot tname dur ∧
        start_from ≤ date ∧ date ≤ start_from + 30 ∧
        slot ∈ availableSlotsOf (get_available_slots date atype (busyOf date)) ∧
        ∀ day, start_from ≤ day → day ≤ start_from + 30 →
          ∀ s2 ∈ availableSlotsOf (get_available_slots day atype (busyOf day)),
            date < day ∨ (date = day ∧ slot.dt ≤ s2.dt)) := by
  constructor
  · intro hall
    have hnil : get_available_slots_range start_from (start_from + 30) atype
        busyOf = [] := by
      unfold get_available_slots_range
      rw [rangeAux_eq, List.filter_eq_nil_iff]
      intro r hr
      obtain ⟨day, hday, rfl⟩ := List.mem_map.mp hr
      obtain ⟨hd1, hd2⟩ := List.mem_range'_1.mp hday
      have := hall day hd1 (by omega)
      simp [hasSlots, this]
    simp only [get_next_available_slot, hnil]
  · intro day0 h01 h02 h0ne
    cases hr : get_available_slots_range start_from (start_from + 30) atype
        busyOf with
    | nil =>
      exfalso
      unfold get_available_slots_range at hr
      rw [rangeAux_eq, List.filter_eq_nil_iff] at hr
      refine h0ne (availableSlotsOf_eq_nil_of_hasSlots_false ?_)
      have hmem : day0 ∈ List.range' start_from (start_from + 30 + 1 - start_from) :=
        List.mem_range'_1.mpr ⟨h01, by omega⟩
      have := hr _ (List.mem_map_of_mem
        (fun day => get_available_slots day atype (busyOf day)) hmem)
      simpa using this
    | cons first rest =>
      have hr' := hr
      unfold get_available_slots_range at hr'
      obtain ⟨k, hk, hfirst, hhas, hmin⟩ :=
        rangeAux_head atype busyOf _ start_from first rest hr'
      have hdate : dateOf first = start_from + k := by
        rw [hfirst]
        exact hasSlots_dateOf (hfirst ▸ hhas)
      cases hslots : availableSlotsOf first with
      | nil => simp [hasSlots, hslots] at hhas
      | cons s0 stail =>
        refine ⟨start_from + k, s0, typeNameOf first, durationOf first,
          ?_, by omega, by omega, ?_, ?_⟩
        · simp only [get_next_available_slot, hr, hslots, hdate]
        · rw [hfirst] at hslots
          rw [hslots]
          exact List.mem_cons_self s0 stail
        · intro day hd1 hd2 s2 hs2
          rcases Nat.lt_trichotomy (start_from + k) day with hlt | heq | hgt
          · exact Or.inl hlt
          · refine Or.inr ⟨heq, ?_⟩
            rw [← heq] at hs2
            have hpw := slots_pairwise (start_from + k) atype (busyOf (start_from + k))
            rw [← hfirst, hslots] at hpw
            rw [← hfirst, hslots] at hs2
            rcases List.mem_cons.mp hs2 with h | h
            · rw [h]
            · exact Nat.le_of_lt ((List.pairwise_cons.mp hpw).1 s2 h)
          · exfalso
            have hj := hmin (day - start_from) (by omega)
            have heq2 : start_from + (day - start_from) = day := by omega
            rw [heq2] at hj
            exact absurd (availableSlotsOf_eq_nil_of_hasSlots_false hj)
              (by simpa using List.ne_nil_of_mem hs2)

/-- Claim C6 witness: with no busy intervals, searching follow-up slots from
day 0 (a Monday) finds the earliest pair and it bounds every other slot of
the window lexicographically. -/
theorem next_slot_earliest_witness :
    ∃ date slot tname dur,
      get_next_available_slot "follow_up" 0 (fun _ => []) =
        .found date slot tname dur ∧
      0 ≤ date ∧ date ≤ 0 + 30 ∧
      slot ∈ availableSlotsOf (get_available_slots date "follow_up" []) ∧
      ∀ day, 0 ≤ day → day ≤ 0 + 30 →
        ∀ s2 ∈ availableSlotsOf (get_available_slots day "follow_up" []),
          date < day ∨ (date = day ∧ slot.dt ≤ s2.dt) :=
  (next_slot_earliest "follow_up" 0 (fun _ => [])).2 0 (by omega) (by omega)
    (by decide)

/-- Claim C7: validation is exactly the fail-fast evaluation of the spec's
ordered checklist (required fields in order, known type, date format, time
format, email contains an at sign), and whenever some check fails,
create_appointment returns that first error for every possible busy-interval
state, so no slot-availability check can influence the outcome. -/
theorem validation_first_failure (d : BookingRequest)
    (busyOf : Nat → List BusyInterval) (u : String) :
    validate_appointment_data d =
      (match firstFailure (specChecklist d) with
       | some m => (false, some m)
       | none => (true, none)) ∧
    ∀ m, firstFailure (specChecklist d) = some m →
      create_appointment d busyOf u = .failure m := by
  have h1 : validate_appointment_data d =
      (match firstFailure (specChecklist d) with
       | some m => (false, some m)
       | none => (true, none)) := by
    unfold validate_appointment_data specChecklist
    by_cases c1 : present d.appointment_type = true
    · by_cases c2 : present d.date = true
      · by_cases c3 : present d.time = true
        · by_cases c4 : present d.patient_name = true
          · by_cases c5 : present d.patient_email = true
            · by_cases c6 : APPOINTMENT_TYPES.lookup (d.appointment_type.getD "")
                  = none
              · simp [firstFailure, c1, c2, c3, c4, c5, c6]
              · obtain ⟨v6, hv6⟩ := Option.ne_none_iff_exists'.mp c6
                by_cases c7 : parse_date_Ymd (d.date.getD "") = none
                · simp [firstFailure, c1, c2, c3, c4, c5, hv6, c7]
                · obtain ⟨v7, hv7⟩ := Option.ne_none_iff_exists'.mp c7
                  by_cases c8 : parse_time_HM (d.time.getD "") = none
                  · simp [firstFailure, c1, c2, c3, c4, c5, hv6, hv7, c8]
                  · obtain ⟨v8, hv8⟩ := Option.ne_none_iff_exists'.mp c8
                    by_cases c9 : '@' ∈ (d.patient_email.getD "").data
                    · simp [firstFailure, c1, c2, c3, c4, c5, hv6, hv7, hv8, c9]
                    · simp [firstFailure, c1, c2, c3, c4, c5, hv6, hv7, hv8, c9]
            · simp [firstFailure, c1, c2, c3, c4, c5]
          · simp [firstFailure, c1, c2, c3, c4]
        · simp [firstFailure, c1, c2, c3]
      · simp [firstFailure, c1, c2]
    · simp [firstFailure, c1]
  refine ⟨h1, fun m hm => ?_⟩
  unfold create_appointment
  rw [h1, hm]
  rfl

/-- Claim C7 witness: a request whose patient email lacks an at sign but is
otherwise valid fails with the malformed-email error, independently of any
availability state. -/
theorem validation_first_failure_witness :
    create_appointment
      ⟨some "follow_up", some "2024-01-01", some "09:00", some "A",
        some "not-an-email", none, none⟩ (fun _ => []) "uid-0" =
      .failure "Invalid email format" :=
  (validation_first_failure
      ⟨some "follow_up", some "2024-01-01", some "09:00", some "A",
        some "not-an-email", none, none⟩ (fun _ => []) "uid-0").2
    "Invalid email format" (by decide)

/-- Claim C8: a request that passes validation and whose requested start time
occurs among the day's available slots books successfully: the result is a
success record with status scheduled, the freshly minted booking id, and an
end time equal to the requested start time plus the catalog duration of the
appointment type. -/
theorem booking_success (d : BookingRequest) (busyOf : Nat → List BusyInterval)
    (u : String) (y mo dd tmin : Nat) (info : ApptInfo)
    (hv : validate_appointment_data d = (true, none))
    (hdate : parse_date_Ymd (d.date.getD "") = some (y, mo, dd))
    (htime : parse_time_HM (d.time.getD "") = some tmin)
    (hinfo : get_appointment_info (d.appointment_type.getD "") = some info)
    (havail : (availableSlotsOf (get_available_slots (dateIndex y mo dd)
        (d.appointment_type.getD "") (busyOf (dateIndex y mo dd)))).any
        (fun s => s.start_time == d.time.getD "") = true) :
    create_appointment d busyOf u =
      .success u
        { type := info.name
          duration := info.duration
          date := d.date.getD ""
          start_time := d.time.getD ""
          end_time := formatHM (tmin + info.duration)
          patient_name := d.patient_name.getD ""
          patient_email := d.patient_email.getD ""
          patient_phone := d.patient_phone.getD "N/A"
          notes := d.notes.getD ""
          status := "scheduled" }
        "Appointment booked successfully" := by
  have hne : availableSlotsOf (get_available_slots (dateIndex y mo dd)
      (d.appointment_type.getD "") (busyOf (dateIndex y mo dd))) ≠ [] := by
    intro hn
    rw [hn] at havail
    simp at havail
  have hcheck : check_slot_availability (d.appointment_type.getD "")
      (d.date.getD "") (d.time.getD "") busyOf = (true, "Slot is available") := by
    rcases get_available_slots_shape (dateIndex y mo dd)
        (d.appointment_type.getD "") (busyOf (dateIndex y mo dd)) with
      ⟨msg, he⟩ | ⟨t2, d2, he⟩ | ⟨w2, t2, d2, sl2, n2, he⟩
    · rw [he] at havail
      simp [availableSlotsOf] at havail
    · rw [he] at hne
      simp [availableSlotsOf] at hne
    · rw [he] at havail hne
      simp only [check_slot_availability, hdate, htime, he, availableSlotsOf]
      rw [if_neg (by simpa [List.isEmpty_iff, availableSlotsOf] using hne),
        if_pos (by simpa [availableSlotsOf] using havail)]
  unfold create_appointment
  rw [hv, hcheck]
  simp only [Bool.not_true, Bool.false_eq_true, if_false, hinfo, hdate, htime]
  unfold simulate_booking
  have harith : dateIndex y mo dd * 1440 + tmin + info.duration =
      dateIndex y mo dd * 1440 + (tmin + info.duration) := by omega
  have hfmt : formatHM (dateIndex y mo dd * 1440 + (tmin + info.duration)) =
      formatHM (tmin + info.duration) := by
    unfold formatHM
    have e1 : (dateIndex y mo dd * 1440 + (tmin + info.duration)) % 1440 =
        (tmin + info.duration) % 1440 := by omega
    have e2 : (dateIndex y mo dd * 1440 + (tmin + info.duration)) % 60 =
        (tmin + info.duration) % 60 := by omega
    rw [e1, e2]
  simp only [harith, hfmt]

/-- Claim C8 witness: booking a follow-up on Monday 2024-01-01 at 09:00 with
a free calendar succeeds with status scheduled and end time 09:15. -/
theorem booking_success_witness :
    create_appointment
      ⟨some "follow_up", some "2024-01-01", some "09:00", some "A",
        some "a@b", none, none⟩ (fun _ => []) "uid-1" =
      .success "uid-1"
        { type := "Follow-up"
          duration := 15
          date := "2024-01-01"
          start_time := "09:00"
          end_time := "09:15"
          patient_name := "A"
          patient_email := "a@b"
          patient_phone := "N/A"
          notes := ""
          status := "scheduled" }
        "Appointment booked successfully" :=
  booking_success
    ⟨some "follow_up", some "2024-01-01", some "09:00", some "A",
      some "a@b", none, none⟩ (fun _ => []) "uid-1" 2024 1 1 540
    ⟨"Follow-up", 15, "Follow-up appointment for previous consultation"⟩
    (by decide) (by decide) (by decide) (by decide) (by decide)

end Sched
